import Mathlib

/-!
Shallow embedding of `src/modules/ffmpeg/producer/muxer/frame_muxer.cpp`
(CasparCG frame muxer) and verification of its specification claims.

Modelling choices, each tied to the source:
* A video frame (`core::mutable_frame`) is an identifier plus its attached
  audio data (`audio_data()`); the synthetic blank frame produced by
  `frame_factory_->create_frame` for `empty_video()` has identifier `none`.
* `std::queue` fronts are list heads; `queue.back()` is the last element.
* Audio samples (`core::audio_buffer`) are lists of `Int` (int32 samples).
* The cadence `std::vector<int>` is a `List Int`; every place the source
  converts an `int` to `size_t` (`static_cast<size_t>(...)`) is modelled by
  `usize`, the exact two's-complement `int → size_t` conversion.
* The external filter (`filter_`) and the display-mode selector
  (`update_display_mode`, whose `get_display_mode` lives outside this
  translation unit) are oracles: a real video frame pushed into the muxer
  carries the list of frames the filter chain ends up emitting for it
  (`filter_.poll_all()`, plus any frames drained while reconfiguring the
  filter inside `update_display_mode`) and the display mode the selector
  computes.  The claims verified here quantify over every possible oracle
  answer, so no behaviour is lost by this abstraction.
* `BOOST_THROW_EXCEPTION` of the overflow error in `push_video`/`push_audio`
  is the `Bool` component of the result (`true` = overflow thrown); the state
  component records the mutations that happened before the throw, exactly as
  they persist in the C++ object.
* `try_pop`'s self-recursion (`return try_pop(result);`) is modelled with
  explicit fuel (`try_pop_fuel`); `none` means the fuel ran out before the
  source function would have returned.
-/

namespace FrameMuxer

/-- Exact C++ `int`(or any signed) → `size_t` conversion: reduction mod `2^64`.
Used wherever the source writes `static_cast<size_t>(...)`. -/
def usize (i : Int) : Nat := (i % (2 ^ 64 : Int)).toNat

/-- `display_mode` enumeration (spec §3 lists exactly these eight values;
the source uses all of them). -/
inductive DisplayMode
  | simple
  | duplicate
  | half
  | interlace
  | deinterlace_bob
  | deinterlace_bob_reinterlace
  | deinterlace
  | invalid
deriving DecidableEq, Repr

/-- A `core::mutable_frame`: an opaque video payload identifier (`none` for the
blank frame synthesized for `empty_video()`) and its `audio_data()`. -/
structure MFrame where
  vid : Option Nat
  audio : List Int
deriving DecidableEq, Repr

/-- A `core::draw_frame` as produced by the muxer: either a plain frame or
`core::draw_frame::interlace(f1, f2, field_mode)`. -/
inductive DrawFrame
  | single (f : MFrame)
  | interlaced (f1 f2 : MFrame) (field : Nat)
deriving DecidableEq, Repr

/-- The state of `frame_muxer::impl`: the two segmented stream buffers, the
internal output buffer, the active display mode, the live audio cadence and
the (fixed) target field mode `format_desc_.field_mode`. -/
structure MuxerState where
  video_streams : List (List MFrame)
  audio_streams : List (List Int)
  frame_buffer : List DrawFrame
  display_mode : DisplayMode
  audio_cadence : List Int
  field_mode : Nat
deriving DecidableEq, Repr

/-- The `impl` constructor: one empty segment in each stream buffer,
`display_mode::invalid`, and the cadence rotated one step so that its last
entry comes first (`boost::range::rotate(audio_cadence_, std::end(audio_cadence_)-1)`). -/
def initMuxer (audio_cadence : List Int) (field_mode : Nat) : MuxerState :=
  { video_streams := [[]]
    audio_streams := [[]]
    frame_buffer := []
    display_mode := .invalid
    audio_cadence := audio_cadence.rotate (audio_cadence.length - 1)
    field_mode := field_mode }

/-- Append elements to the back segment of a stream buffer
(`streams.back().push(...)` / `boost::range::push_back(streams.back(), ...)`).
The source never calls this on an empty buffer (the ≥1-segment invariant). -/
def pushBackSeg {α : Type} (q : List (List α)) (xs : List α) : List (List α) :=
  q.dropLast ++ [q.getLastD [] ++ xs]

/-- Input to `push_video` (a non-null `AVFrame` pointer): the `flush_video()`
sentinel, the `empty_video()` sentinel, or a real frame.  For a real frame,
`mode` is the display mode `update_display_mode` would select (computed by
code outside this translation unit) and `fs` lists the identifiers of every
frame the filter chain emits for this push (`filter_.poll_all()`, preceded by
any frames drained while `update_display_mode` swaps the filter). -/
inductive VideoInput
  | flush
  | empty
  | frames (mode : DisplayMode) (fs : List Nat)

/-- `frame_muxer::impl::push_video` (lines 100-125).  Returns the mutated
state and whether the video-stream overflow exception was thrown. -/
def push_video (s : MuxerState) (v : VideoInput) : MuxerState × Bool :=
  let s' :=
    match v with
    | .flush => { s with video_streams := s.video_streams ++ [[]] }
    | .empty =>
        { s with video_streams := pushBackSeg s.video_streams [⟨none, []⟩]
                 display_mode := .simple }
    | .frames m fs =>
        let dm := if s.display_mode = .invalid then m else s.display_mode
        { s with display_mode := dm
                 video_streams := pushBackSeg s.video_streams (fs.map fun n => ⟨some n, []⟩) }
  (s', decide (32 < (s'.video_streams.getLastD []).length))

/-- Input to `push_audio` (a non-null buffer pointer): the `flush_audio()`
sentinel, the `empty_audio()` sentinel, or a real chunk of samples. -/
inductive AudioInput
  | flush
  | empty
  | chunk (xs : List Int)

/-- `frame_muxer::impl::push_audio` (lines 127-141).  `empty_audio()` appends
`audio_cadence_.front()` zero samples; the overflow bound is
`static_cast<size_t>(32*audio_cadence_.front())`. -/
def push_audio (s : MuxerState) (a : AudioInput) : MuxerState × Bool :=
  let s' :=
    match a with
    | .flush => { s with audio_streams := s.audio_streams ++ [[]] }
    | .empty =>
        { s with audio_streams := pushBackSeg s.audio_streams (List.replicate (usize (s.audio_cadence.headD 0)) 0) }
    | .chunk xs => { s with audio_streams := pushBackSeg s.audio_streams xs }
  (s', decide (usize (32 * s.audio_cadence.headD 0) < (s'.audio_streams.getLastD []).length))

/-- `frame_muxer::impl::video_ready2` (lines 153-164). -/
def video_ready2 (s : MuxerState) : Bool :=
  match s.display_mode with
  | .deinterlace_bob_reinterlace | .interlace | .half =>
      decide (2 ≤ (s.video_streams.headD []).length)
  | _ => decide (1 ≤ (s.video_streams.headD []).length)

/-- `frame_muxer::impl::audio_ready2` (lines 166-175). -/
def audio_ready2 (s : MuxerState) : Bool :=
  match s.display_mode with
  | .duplicate =>
      decide (usize (s.audio_cadence.headD 0) ≤ (s.audio_streams.headD []).length / 2)
  | _ => decide (usize (s.audio_cadence.headD 0) ≤ (s.audio_streams.headD []).length)

/-- `frame_muxer::impl::video_ready` (lines 143-146). -/
def video_ready (s : MuxerState) : Bool :=
  decide (1 < s.video_streams.length) ||
    (decide (s.audio_streams.length ≤ s.video_streams.length) && video_ready2 s)

/-- `frame_muxer::impl::audio_ready` (lines 148-151). -/
def audio_ready (s : MuxerState) : Bool :=
  decide (1 < s.audio_streams.length) ||
    (decide (s.video_streams.length ≤ s.audio_streams.length) && audio_ready2 s)

/-- `frame_muxer::impl::pop_video` (lines 244-249): remove and return the
front frame of the front video segment.  The source never calls this with an
empty buffer or an empty ready-checked front segment; those cases are
undefined there and return a dummy frame here. -/
def pop_video (s : MuxerState) : MFrame × MuxerState :=
  match s.video_streams with
  | [] => (⟨none, []⟩, s)
  | seg :: rest => (seg.headD ⟨none, []⟩, { s with video_streams := seg.tail :: rest })

/-- `frame_muxer::impl::pop_audio` (lines 251-264): take
`audio_cadence_.front()` samples off the front audio segment, then rotate the
cadence left by one.  `CASPAR_VERIFY` asserts the front segment holds at
least that many samples; theorems below carry that precondition, and a
negative cadence front (undefined iterator arithmetic in the source) is read
as zero. -/
def pop_audio (s : MuxerState) : List Int × MuxerState :=
  match s.audio_streams with
  | [] => ([], s)
  | buf :: rest =>
      let n := (s.audio_cadence.headD 0).toNat
      (buf.take n,
       { s with audio_streams := buf.drop n :: rest
                audio_cadence := s.audio_cadence.rotate 1 })

/-- Segment-boundary maintenance step of `try_pop` (lines 186-193): when both
stream buffers hold more than one segment and either front segment is not
individually ready, drop both front segments (the source additionally logs
the discarded amounts). -/
def truncate_streams (s : MuxerState) : MuxerState :=
  if decide (1 < s.video_streams.length) && decide (1 < s.audio_streams.length) &&
      (!video_ready2 s || !audio_ready2 s) then
    { s with video_streams := s.video_streams.tail
             audio_streams := s.audio_streams.tail }
  else s

/-- Guard of `try_pop` (line 195): no output can be assembled when either
front segment is not ready or no display mode has been chosen yet. -/
def not_ready (s : MuxerState) : Bool :=
  !video_ready2 s || !audio_ready2 s || decide (s.display_mode = .invalid)

/-- Assembly step of `try_pop` (lines 198-239): pop one video frame, attach
one cadence-allocated audio chunk, then branch on the display mode, pushing
the produced `draw_frame`(s) into the internal output buffer.  The `invalid`
arm of the switch throws in the source; it is unreachable because `not_ready`
already returned when the display mode is invalid. -/
def assemble (s : MuxerState) : MuxerState :=
  let p1 := pop_video s
  let p2 := pop_audio p1.2
  let frame1 : MFrame := { p1.1 with audio := p2.1 }
  let s3 := p2.2
  match s3.display_mode with
  | .simple | .deinterlace_bob | .deinterlace =>
      { s3 with frame_buffer := s3.frame_buffer ++ [.single frame1] }
  | .interlace | .deinterlace_bob_reinterlace =>
      let q := pop_video s3
      { q.2 with frame_buffer := q.2.frame_buffer ++ [.interlaced frame1 q.1 q.2.field_mode] }
  | .duplicate =>
      let q := pop_audio s3
      let frame1' : MFrame := { frame1 with audio := frame1.audio ++ q.1 }
      { q.2 with frame_buffer := q.2.frame_buffer ++ [.single frame1', .single frame1'] }
  | .half =>
      let q := pop_video s3
      { q.2 with frame_buffer := q.2.frame_buffer ++ [.single frame1] }
  | .invalid => s3

/-- `frame_muxer::impl::try_pop` (lines 177-242) with explicit recursion fuel:
`try_pop_fuel (n+1)` runs one invocation whose trailing `return try_pop(result)`
is `try_pop_fuel n`; `none` means the fuel was exhausted first.  The result is
the popped `draw_frame` (or `none` for the source's `return false`) and the
mutated state. -/
def try_pop_fuel : Nat → MuxerState → Option (Option DrawFrame × MuxerState)
  | 0, _ => none
  | fuel + 1, s =>
    match s.frame_buffer with
    | f :: rest => some (some f, { s with frame_buffer := rest })
    | [] =>
      let s1 := truncate_streams s
      if not_ready s1 then some (none, s1)
      else try_pop_fuel fuel (assemble s1)

/-- `frame_muxer::impl::try_pop` as called by clients.  Fuel 2 always
suffices (proved below), so the `getD` default is never taken. -/
def try_pop (s : MuxerState) : Option DrawFrame × MuxerState :=
  (try_pop_fuel 2 s).getD (none, s)

/-- `frame_muxer::impl::calc_nb_frames` (lines 318-338): widen to `uint64`,
double for a double-rate filter, adjust for the display mode, then truncate
back to `uint32`.  No intermediate `uint64` overflow is possible for a
`uint32` input, so only the final cast reduces. -/
def calc_nb_frames (is_double_rate : Bool) (mode : DisplayMode) (nb_frames : Nat) : Nat :=
  let n2 := if is_double_rate then nb_frames * 2 else nb_frames
  let n3 :=
    match mode with
    | .deinterlace_bob_reinterlace | .interlace | .half => n2 / 2
    | .duplicate => n2 * 2
    | _ => n2
  n3 % 2 ^ 32

/-- Iterate `pop_audio` a given number of times, collecting the chunks. -/
def pop_audio_iter : Nat → MuxerState → List (List Int) × MuxerState
  | 0, s => ([], s)
  | k + 1, s =>
      let p := pop_audio s
      let r := pop_audio_iter k p.2
      (p.1 :: r.1, r.2)

/-- Iterate `try_pop` a given number of times, collecting the results. -/
def try_pop_run : Nat → MuxerState → List (Option DrawFrame) × MuxerState
  | 0, s => ([], s)
  | k + 1, s =>
      let p := try_pop s
      let r := try_pop_run k p.2
      (p.1 :: r.1, r.2)

/-- Per-tick video unit count of a display mode, as the spec words it (two
for the modes combining two video frames, one otherwise).  Used to compare
the spec's readiness description with the code's `video_ready`. -/
def video_tick_units : DisplayMode → Nat
  | .deinterlace_bob_reinterlace | .interlace | .half => 2
  | _ => 1

/-- Per-tick audio sample count of a display mode, as the spec words it
(`cadence_head` samples, or twice that for `Duplicate`). -/
def audio_tick_units (m : DisplayMode) (cadence_head : Nat) : Nat :=
  match m with
  | .duplicate => 2 * cadence_head
  | _ => cadence_head

/-- The spec's description of `video_ready` (§4.4): more than one segment
buffered, or the front segment holds one tick's worth of video units.  To be
compared with the code's `video_ready`. -/
def video_ready_spec (s : MuxerState) : Prop :=
  1 < s.video_streams.length ∨
    (s.audio_streams.length ≤ s.video_streams.length ∧
      video_tick_units s.display_mode ≤ (s.video_streams.headD []).length)

/-- The spec's description of `audio_ready` (§4.4), to be compared with the
code's `audio_ready`. -/
def audio_ready_spec (s : MuxerState) : Prop :=
  1 < s.audio_streams.length ∨
    (s.video_streams.length ≤ s.audio_streams.length ∧
      audio_tick_units s.display_mode (s.audio_cadence.headD 0).toNat ≤
        (s.audio_streams.headD []).length)

/-- A state whose back video segment already holds 32 frames while its front
segment is empty: the next pushed frame overflows even though the front
segment is far below the bound. -/
def backFullState : MuxerState :=
  { video_streams := [[], List.replicate 32 ⟨some 9, []⟩]
    audio_streams := [[]]
    frame_buffer := []
    display_mode := .simple
    audio_cadence := [2]
    field_mode := 0 }

/-- A state with one video segment whose front frame is available but with
two audio segments buffered: `video_ready` is false although the front video
segment holds a full tick. -/
def laggingVideoState : MuxerState :=
  { video_streams := [[⟨some 1, []⟩]]
    audio_streams := [[], []]
    frame_buffer := []
    display_mode := .simple
    audio_cadence := [2]
    field_mode := 0 }

/-- A state with a buffered output frame, two segments on each stream and
unready front segments: `try_pop` returns the buffered frame and performs no
truncation. -/
def bufferedState : MuxerState :=
  { video_streams := [[], []]
    audio_streams := [[], []]
    frame_buffer := [.single ⟨some 99, []⟩]
    display_mode := .simple
    audio_cadence := [2]
    field_mode := 0 }

/-- A generic running state used to instantiate universally quantified
theorems on concrete data. -/
def sampleState : MuxerState :=
  { video_streams := [[⟨some 1, []⟩, ⟨some 2, []⟩]]
    audio_streams := [[0, 1, 2, 3, 4, 5, 6, 7]]
    frame_buffer := []
    display_mode := .simple
    audio_cadence := [3, 2]
    field_mode := 1 }

/-- A state at a segment boundary: both streams hold two segments whose front
segments are not ready, with an empty output buffer. -/
def boundaryState : MuxerState :=
  { video_streams := [[], [⟨some 1, []⟩]]
    audio_streams := [[], [5, 5]]
    frame_buffer := []
    display_mode := .simple
    audio_cadence := [2]
    field_mode := 0 }

/-- The composite frames produced by `N` consecutive `Duplicate`-mode pop
cycles (lines 198-229): each tick takes the next buffered video frame,
allocates one chunk of `cadence_head` samples, rotates the cadence, allocates
a second chunk of the new head's size, concatenates the second chunk onto the
first as the frame's audio, and leaves the cadence rotated twice. -/
def duplicate_tick_frames : Nat → List MFrame → List Int → List Int → List DrawFrame
  | 0, _, _, _ => []
  | n + 1, vseg, buf, cad =>
      DrawFrame.single ⟨(vseg.headD ⟨none, []⟩).vid,
          buf.take (cad.headD 0).toNat ++
            (buf.drop (cad.headD 0).toNat).take ((cad.rotate 1).headD 0).toNat⟩ ::
        duplicate_tick_frames n vseg.tail
          ((buf.drop (cad.headD 0).toNat).drop ((cad.rotate 1).headD 0).toNat)
          (cad.rotate 2)

/-- The front audio segment remaining after `N` `Duplicate`-mode pop cycles:
each tick removes the current cadence head's worth of samples and then the
next (post-rotation) head's worth. -/
def duplicate_consume : Nat → List Int → List Int → List Int
  | 0, buf, _ => buf
  | n + 1, buf, cad =>
      duplicate_consume n
        ((buf.drop (cad.headD 0).toNat).drop ((cad.rotate 1).headD 0).toNat)
        (cad.rotate 2)

/-- A `Duplicate`-mode state with two buffered video frames and exactly the
audio needed for two ticks under cadence `[3, 2]`. -/
def duplicateState : MuxerState :=
  { video_streams := [[⟨some 1, []⟩, ⟨some 2, []⟩]]
    audio_streams := [[0, 1, 2, 3, 4, 5, 6, 7, 8, 9, 10, 11]]
    frame_buffer := []
    display_mode := .duplicate
    audio_cadence := [3, 2]
    field_mode := 0 }

/-! ### Helper lemmas about the embedded operations -/

lemma usize_eq_toNat (i : Int) (h0 : 0 ≤ i) (h1 : i < 2 ^ 64) : usize i = i.toNat := by
  unfold usize
  rw [Int.emod_eq_of_lt h0 (by exact_mod_cast h1)]

lemma pushBackSeg_getLastD {α : Type} (q : List (List α)) (xs : List α) :
    (pushBackSeg q xs).getLastD [] = q.getLastD [] ++ xs := by
  simp [pushBackSeg, List.getLastD_concat]

lemma pushBackSeg_ne_nil {α : Type} (q : List (List α)) (xs : List α) :
    pushBackSeg q xs ≠ [] := by
  simp [pushBackSeg]

lemma pushBackSeg_length {α : Type} (q : List (List α)) (xs : List α) (h : q ≠ []) :
    (pushBackSeg q xs).length = q.length := by
  cases q with
  | nil => exact absurd rfl h
  | cons a t => simp [pushBackSeg, List.length_dropLast]

@[simp] lemma pop_video_audio_streams (s : MuxerState) :
    (pop_video s).2.audio_streams = s.audio_streams := by
  cases h : s.video_streams <;> simp [pop_video, h]

@[simp] lemma pop_video_frame_buffer (s : MuxerState) :
    (pop_video s).2.frame_buffer = s.frame_buffer := by
  cases h : s.video_streams <;> simp [pop_video, h]

@[simp] lemma pop_video_display_mode (s : MuxerState) :
    (pop_video s).2.display_mode = s.display_mode := by
  cases h : s.video_streams <;> simp [pop_video, h]

@[simp] lemma pop_video_audio_cadence (s : MuxerState) :
    (pop_video s).2.audio_cadence = s.audio_cadence := by
  cases h : s.video_streams <;> simp [pop_video, h]

@[simp] lemma pop_video_field_mode (s : MuxerState) :
    (pop_video s).2.field_mode = s.field_mode := by
  cases h : s.video_streams <;> simp [pop_video, h]

@[simp] lemma pop_video_video_length (s : MuxerState) :
    (pop_video s).2.video_streams.length = s.video_streams.length := by
  cases h : s.video_streams <;> simp [pop_video, h]

@[simp] lemma pop_video_video_tail (s : MuxerState) :
    (pop_video s).2.video_streams.tail = s.video_streams.tail := by
  cases h : s.video_streams <;> simp [pop_video, h]

@[simp] lemma pop_audio_video_streams (s : MuxerState) :
    (pop_audio s).2.video_streams = s.video_streams := by
  cases h : s.audio_streams <;> simp [pop_audio, h]

@[simp] lemma pop_audio_frame_buffer (s : MuxerState) :
    (pop_audio s).2.frame_buffer = s.frame_buffer := by
  cases h : s.audio_streams <;> simp [pop_audio, h]

@[simp] lemma pop_audio_display_mode (s : MuxerState) :
    (pop_audio s).2.display_mode = s.display_mode := by
  cases h : s.audio_streams <;> simp [pop_audio, h]

@[simp] lemma pop_audio_field_mode (s : MuxerState) :
    (pop_audio s).2.field_mode = s.field_mode := by
  cases h : s.audio_streams <;> simp [pop_audio, h]

@[simp] lemma pop_audio_audio_length (s : MuxerState) :
    (pop_audio s).2.audio_streams.length = s.audio_streams.length := by
  cases h : s.audio_streams <;> simp [pop_audio, h]

@[simp] lemma pop_audio_audio_tail (s : MuxerState) :
    (pop_audio s).2.audio_streams.tail = s.audio_streams.tail := by
  cases h : s.audio_streams <;> simp [pop_audio, h]

lemma pop_audio_cadence_of_ne_nil (s : MuxerState) (h : s.audio_streams ≠ []) :
    (pop_audio s).2.audio_cadence = s.audio_cadence.rotate 1 := by
  cases hs : s.audio_streams with
  | nil => exact absurd hs h
  | cons buf rest => simp [pop_audio, hs]

lemma pop_audio_cadence_rotation (s : MuxerState) :
    ∃ k, (pop_audio s).2.audio_cadence = s.audio_cadence.rotate k := by
  cases hs : s.audio_streams with
  | nil => exact ⟨0, by simp [pop_audio, hs, List.rotate_zero]⟩
  | cons buf rest => exact ⟨1, by simp [pop_audio, hs]⟩

lemma try_pop_fuel_buffer (n : Nat) (s : MuxerState) (h : s.frame_buffer ≠ []) :
    try_pop_fuel (n + 1) s =
      some (s.frame_buffer.head?, { s with frame_buffer := s.frame_buffer.tail }) := by
  cases hb : s.frame_buffer with
  | nil => exact absurd hb h
  | cons f rest => simp [try_pop_fuel, hb]

lemma try_pop_buffer (s : MuxerState) (f : DrawFrame) (rest : List DrawFrame)
    (h : s.frame_buffer = f :: rest) :
    try_pop s = (some f, { s with frame_buffer := rest }) := by
  simp [try_pop, try_pop_fuel, h]

lemma assemble_video_length (s : MuxerState) :
    (assemble s).video_streams.length = s.video_streams.length := by
  cases hm : s.display_mode <;> simp [assemble, hm]

lemma assemble_video_tail (s : MuxerState) :
    (assemble s).video_streams.tail = s.video_streams.tail := by
  cases hm : s.display_mode <;> simp [assemble, hm]

lemma assemble_audio_length (s : MuxerState) :
    (assemble s).audio_streams.length = s.audio_streams.length := by
  cases hm : s.display_mode <;> simp [assemble, hm]

lemma assemble_audio_tail (s : MuxerState) :
    (assemble s).audio_streams.tail = s.audio_streams.tail := by
  cases hm : s.display_mode <;> simp [assemble, hm]

lemma assemble_display_mode (s : MuxerState) :
    (assemble s).display_mode = s.display_mode := by
  cases hm : s.display_mode <;> simp [assemble, hm]

lemma assemble_cadence_rotation (s : MuxerState) :
    ∃ k, (assemble s).audio_cadence = s.audio_cadence.rotate k := by
  obtain ⟨k1, h1⟩ := pop_audio_cadence_rotation (pop_video s).2
  rw [pop_video_audio_cadence] at h1
  obtain ⟨k2, h2⟩ := pop_audio_cadence_rotation (pop_audio (pop_video s).2).2
  rw [h1, List.rotate_rotate] at h2
  cases hm : s.display_mode
  case duplicate => exact ⟨k1 + k2, by simp [assemble, hm, h2]⟩
  all_goals exact ⟨k1, by simp [assemble, hm, h1]⟩

lemma assemble_frame_buffer_ne_nil (s : MuxerState) (h : s.display_mode ≠ .invalid) :
    (assemble s).frame_buffer ≠ [] := by
  cases hm : s.display_mode <;> simp [assemble, hm]
  exact absurd hm h

lemma truncate_streams_frame_buffer (s : MuxerState) :
    (truncate_streams s).frame_buffer = s.frame_buffer := by
  unfold truncate_streams; split <;> rfl

lemma truncate_streams_display_mode (s : MuxerState) :
    (truncate_streams s).display_mode = s.display_mode := by
  unfold truncate_streams; split <;> rfl

lemma truncate_streams_audio_cadence (s : MuxerState) :
    (truncate_streams s).audio_cadence = s.audio_cadence := by
  unfold truncate_streams; split <;> rfl

lemma truncate_streams_cases (s : MuxerState) :
    truncate_streams s = s ∨
      (1 < s.video_streams.length ∧ 1 < s.audio_streams.length ∧
        truncate_streams s =
          { s with video_streams := s.video_streams.tail
                   audio_streams := s.audio_streams.tail }) := by
  unfold truncate_streams
  split
  case isTrue h =>
    simp only [Bool.and_eq_true, decide_eq_true_eq] at h
    exact Or.inr ⟨h.1.1, h.1.2, rfl⟩
  case isFalse h => exact Or.inl rfl

lemma not_ready_false (s : MuxerState) (h : not_ready s = false) :
    video_ready2 s = true ∧ audio_ready2 s = true ∧ s.display_mode ≠ .invalid := by
  simp only [not_ready, Bool.or_eq_false_iff, Bool.not_eq_false', decide_eq_false_iff_not] at h
  exact ⟨h.1.1, h.1.2, h.2⟩

/-- Complete case analysis of one `try_pop` call: either it drains the
internal output buffer, or (after possible truncation) it reports "not
ready", or it assembles output and returns the first produced frame. -/
lemma try_pop_cases (s : MuxerState) :
    (∃ f rest, s.frame_buffer = f :: rest ∧ try_pop s = (some f, { s with frame_buffer := rest })) ∨
    (s.frame_buffer = [] ∧ not_ready (truncate_streams s) = true ∧
      try_pop s = (none, truncate_streams s)) ∨
    (s.frame_buffer = [] ∧ not_ready (truncate_streams s) = false ∧
      try_pop s = ((assemble (truncate_streams s)).frame_buffer.head?,
        { assemble (truncate_streams s) with
            frame_buffer := (assemble (truncate_streams s)).frame_buffer.tail })) := by
  cases hb : s.frame_buffer with
  | cons f rest =>
      exact Or.inl ⟨f, rest, rfl, by simp [try_pop, try_pop_fuel, hb]⟩
  | nil =>
      have body : try_pop_fuel 2 s =
          (if not_ready (truncate_streams s) then some (none, truncate_streams s)
           else try_pop_fuel 1 (assemble (truncate_streams s))) := by
        simp [try_pop_fuel, hb]
      by_cases hr : not_ready (truncate_streams s) = true
      · refine Or.inr (Or.inl ⟨rfl, hr, ?_⟩)
        simp [try_pop, body, hr]
      · have hr' : not_ready (truncate_streams s) = false := by
          simpa using hr
        refine Or.inr (Or.inr ⟨rfl, hr', ?_⟩)
        have hne : (assemble (truncate_streams s)).frame_buffer ≠ [] :=
          assemble_frame_buffer_ne_nil _ (by
            rw [truncate_streams_display_mode]
            have := (not_ready_false _ hr').2.2
            rwa [truncate_streams_display_mode] at this)
        rw [try_pop, body, if_neg (by simp [hr'])]
        rw [show (1 : Nat) = 0 + 1 from rfl, try_pop_fuel_buffer 0 _ hne]
        rfl

/-- Fuel 2 always suffices for `try_pop_fuel`, and adding fuel does not
change the result. -/
lemma try_pop_fuel_stable (n : Nat) (s : MuxerState) :
    try_pop_fuel (n + 2) s = try_pop_fuel 2 s ∧ (try_pop_fuel 2 s).isSome = true := by
  cases hb : s.frame_buffer with
  | cons f rest =>
      have h1 := try_pop_fuel_buffer 1 s (by simp [hb])
      have h2 := try_pop_fuel_buffer (n + 1) s (by simp [hb])
      exact ⟨by rw [show n + 2 = n + 1 + 1 from rfl, h2, h1], by rw [h1]; rfl⟩
  | nil =>
      have body : ∀ m, try_pop_fuel (m + 1) s =
          (if not_ready (truncate_streams s) then some (none, truncate_streams s)
           else try_pop_fuel m (assemble (truncate_streams s))) := by
        intro m; simp [try_pop_fuel, hb]
      by_cases hr : not_ready (truncate_streams s) = true
      · constructor
        · rw [show n + 2 = n + 1 + 1 from rfl, body (n + 1), body 1, if_pos hr, if_pos hr]
        · rw [show (2 : Nat) = 1 + 1 from rfl, body 1, if_pos hr]; rfl
      · have hr' : not_ready (truncate_streams s) = false := by simpa using hr
        have hne : (assemble (truncate_streams s)).frame_buffer ≠ [] :=
          assemble_frame_buffer_ne_nil _ (by
            rw [truncate_streams_display_mode]
            have := (not_ready_false _ hr').2.2
            rwa [truncate_streams_display_mode] at this)
        have e1 := try_pop_fuel_buffer 0 (assemble (truncate_streams s)) hne
        have e2 := try_pop_fuel_buffer n (assemble (truncate_streams s)) hne
        constructor
        · rw [show n + 2 = n + 1 + 1 from rfl, body (n + 1), body 1, if_neg (by simp [hr']),
            if_neg (by simp [hr'])]
          rw [show n + 1 = n + 1 from rfl, e2, show (1 : Nat) = 0 + 1 from rfl, e1]
        · rw [show (2 : Nat) = 1 + 1 from rfl, body 1, if_neg (by simp [hr']),
            show (1 : Nat) = 0 + 1 from rfl, e1]
          rfl

lemma headD_mem {α : Type} (l : List α) (d : α) (h : l ≠ []) : l.headD d ∈ l := by
  cases l with
  | nil => exact absurd rfl h
  | cons a t => simp

lemma tail_tail_eq_drop_two {α : Type} (l : List α) : l.tail.tail = l.drop 2 := by
  rw [← List.drop_one, ← List.drop_one, List.drop_drop]

/-! ### Claim theorems -/

/-- C10: `try_pop` always terminates with self-call depth at most two: a fuel
of two always produces a result (never runs out), and any larger fuel yields
exactly the same result, because every executed display-mode branch pushes at
least one frame into the output buffer before the single recursive retry. -/
theorem try_pop_depth_two (s : MuxerState) (k : Nat) (hk : 2 ≤ k) :
    (try_pop_fuel 2 s).isSome = true ∧ try_pop_fuel k s = try_pop_fuel 2 s := by
  obtain ⟨e, i⟩ := try_pop_fuel_stable (k - 2) s
  refine ⟨i, ?_⟩
  rw [show k = k - 2 + 2 from (Nat.sub_add_cancel hk).symm]
  exact e

/-- Witness for C10 at a concrete state and fuel. -/
theorem try_pop_depth_two_witness :
    (try_pop_fuel 2 (initMuxer [1602, 1601] 0)).isSome = true ∧
      try_pop_fuel 5 (initMuxer [1602, 1601] 0) = try_pop_fuel 2 (initMuxer [1602, 1601] 0) :=
  try_pop_depth_two (initMuxer [1602, 1601] 0) 5 (by decide)

/-- C7: pushing a `Flush` marker on either stream appends exactly one empty
segment at the back, leaves every previously buffered segment unchanged,
increases the segment count by exactly one, and never raises Overflow. -/
theorem push_flush_appends_segment (s : MuxerState) :
    push_video s .flush = ({ s with video_streams := s.video_streams ++ [[]] }, false) ∧
    push_audio s .flush = ({ s with audio_streams := s.audio_streams ++ [[]] }, false) ∧
    (push_video s .flush).1.video_streams.length = s.video_streams.length + 1 ∧
    (push_audio s .flush).1.audio_streams.length = s.audio_streams.length + 1 := by
  refine ⟨?_, ?_, by simp [push_video], by simp [push_audio]⟩
  · simp [push_video, List.getLastD_concat]
  · simp [push_audio, List.getLastD_concat]

/-- C6 counterexample: with an output frame still buffered, `try_pop` returns
it and drops nothing, even though both streams hold more than one segment and
the front video segment is not ready. -/
theorem try_pop_no_truncation_when_buffered :
    1 < bufferedState.video_streams.length ∧
    1 < bufferedState.audio_streams.length ∧
    video_ready2 bufferedState = false ∧
    (try_pop bufferedState).2.video_streams = bufferedState.video_streams ∧
    (try_pop bufferedState).2.audio_streams = bufferedState.audio_streams := by
  decide

/-- C6 (amended): when the internal output buffer is empty, both stream
buffers hold more than one segment, and either front segment is not
individually ready, `try_pop` drops both front segments (any leftover data
in them included) before re-evaluating readiness. -/
theorem try_pop_truncates_when_unready (s : MuxerState) (hb : s.frame_buffer = [])
    (hv : 1 < s.video_streams.length) (ha : 1 < s.audio_streams.length)
    (hr : video_ready2 s = false ∨ audio_ready2 s = false) :
    (try_pop s).2.video_streams.length = s.video_streams.length - 1 ∧
    (try_pop s).2.audio_streams.length = s.audio_streams.length - 1 ∧
    (try_pop s).2.video_streams.tail = s.video_streams.drop 2 ∧
    (try_pop s).2.audio_streams.tail = s.audio_streams.drop 2 := by
  have hcond : (decide (1 < s.video_streams.length) && decide (1 < s.audio_streams.length) &&
      (!video_ready2 s || !audio_ready2 s)) = true := by
    rcases hr with h | h <;> simp [hv, ha, h]
  have ht : truncate_streams s =
      { s with video_streams := s.video_streams.tail
               audio_streams := s.audio_streams.tail } := by
    unfold truncate_streams
    rw [if_pos hcond]
  rcases try_pop_cases s with ⟨f, rest, hfb, _⟩ | ⟨_, _, he⟩ | ⟨_, _, he⟩
  · rw [hb] at hfb; cases hfb
  · rw [he, ht]
    exact ⟨by simp [List.length_tail], by simp [List.length_tail],
      by simp [tail_tail_eq_drop_two], by simp [tail_tail_eq_drop_two]⟩
  · rw [he]
    simp only [assemble_video_length, assemble_video_tail, assemble_audio_length,
      assemble_audio_tail, ht]
    exact ⟨by simp [List.length_tail], by simp [List.length_tail],
      by simp [tail_tail_eq_drop_two], by simp [tail_tail_eq_drop_two]⟩

/-- Witness for C6 at a concrete boundary state. -/
theorem try_pop_truncates_when_unready_witness :
    (try_pop boundaryState).2.video_streams.length = boundaryState.video_streams.length - 1 ∧
    (try_pop boundaryState).2.audio_streams.length = boundaryState.audio_streams.length - 1 ∧
    (try_pop boundaryState).2.video_streams.tail = boundaryState.video_streams.drop 2 ∧
    (try_pop boundaryState).2.audio_streams.tail = boundaryState.audio_streams.drop 2 :=
  try_pop_truncates_when_unready boundaryState (by decide) (by decide) (by decide)
    (Or.inl (by decide))

/-- C8: construction establishes the ≥1-segment invariant on both stream
buffers; pushes never remove a segment and preserve the invariant; `try_pop`
preserves the invariant, removes at most one segment per stream, removes one
only when both streams held more than one, and removal only happens at the
front (the segments behind the front are exactly a tail of the originals). -/
theorem muxer_segment_invariant (cad : List Int) (fm : Nat) (s : MuxerState)
    (v : VideoInput) (a : AudioInput)
    (hv : s.video_streams ≠ []) (ha : s.audio_streams ≠ []) :
    ((initMuxer cad fm).video_streams.length = 1 ∧ (initMuxer cad fm).audio_streams.length = 1) ∧
    ((push_video s v).1.video_streams ≠ [] ∧
      s.video_streams.length ≤ (push_video s v).1.video_streams.length ∧
      (push_video s v).1.audio_streams = s.audio_streams) ∧
    ((push_audio s a).1.audio_streams ≠ [] ∧
      s.audio_streams.length ≤ (push_audio s a).1.audio_streams.length ∧
      (push_audio s a).1.video_streams = s.video_streams) ∧
    ((try_pop s).2.video_streams ≠ [] ∧ (try_pop s).2.audio_streams ≠ [] ∧
      ∃ k, k ≤ 1 ∧
        (try_pop s).2.video_streams.length = s.video_streams.length - k ∧
        (try_pop s).2.audio_streams.length = s.audio_streams.length - k ∧
        (k = 1 → 1 < s.video_streams.length ∧ 1 < s.audio_streams.length) ∧
        (try_pop s).2.video_streams.tail = s.video_streams.drop (1 + k) ∧
        (try_pop s).2.audio_streams.tail = s.audio_streams.drop (1 + k)) := by
  have hvl : 0 < s.video_streams.length := List.length_pos.mpr hv
  have hal : 0 < s.audio_streams.length := List.length_pos.mpr ha
  refine ⟨⟨by simp [initMuxer], by simp [initMuxer]⟩, ?_, ?_, ?_⟩
  · cases v with
    | flush => exact ⟨by simp [push_video], by simp [push_video], by simp [push_video]⟩
    | empty =>
        exact ⟨by simp [push_video, pushBackSeg_ne_nil],
          le_of_eq (by simp [push_video, pushBackSeg_length _ _ hv]),
          by simp [push_video]⟩
    | frames m fs =>
        exact ⟨by simp [push_video, pushBackSeg_ne_nil],
          le_of_eq (by simp [push_video, pushBackSeg_length _ _ hv]),
          by simp [push_video]⟩
  · cases a with
    | flush => exact ⟨by simp [push_audio], by simp [push_audio], by simp [push_audio]⟩
    | empty =>
        exact ⟨by simp [push_audio, pushBackSeg_ne_nil],
          le_of_eq (by simp [push_audio, pushBackSeg_length _ _ ha]),
          by simp [push_audio]⟩
    | chunk xs =>
        exact ⟨by simp [push_audio, pushBackSeg_ne_nil],
          le_of_eq (by simp [push_audio, pushBackSeg_length _ _ ha]),
          by simp [push_audio]⟩
  · rcases try_pop_cases s with ⟨f, rest, hfb, he⟩ | ⟨hfb, hnr, he⟩ | ⟨hfb, hnr, he⟩
    · rw [he]
      refine ⟨by simpa using hv, by simpa using ha, 0, by omega, by simp, by simp, ?_, ?_, ?_⟩
      · intro h; cases h
      · simp [← List.drop_one]
      · simp [← List.drop_one]
    · rcases truncate_streams_cases s with htr | ⟨hv1, ha1, htr⟩
      · rw [he, htr]
        refine ⟨hv, ha, 0, by omega, by simp, by simp, ?_, ?_, ?_⟩
        · intro h; cases h
        · simp [← List.drop_one]
        · simp [← List.drop_one]
      · rw [he, htr]
        refine ⟨?_, ?_, 1, le_refl 1, by simp [List.length_tail], by simp [List.length_tail],
          fun _ => ⟨hv1, ha1⟩, by simp [tail_tail_eq_drop_two], by simp [tail_tail_eq_drop_two]⟩
        · show s.video_streams.tail ≠ []
          rw [← List.length_pos, List.length_tail]; omega
        · show s.audio_streams.tail ≠ []
          rw [← List.length_pos, List.length_tail]; omega
    · rcases truncate_streams_cases s with htr | ⟨hv1, ha1, htr⟩
      · rw [he]
        simp only [assemble_video_length, assemble_video_tail, assemble_audio_length,
          assemble_audio_tail, htr]
        refine ⟨?_, ?_, 0, by omega, by simp, by simp, ?_, ?_, ?_⟩
        · rw [← List.length_pos, assemble_video_length]
          simpa [← List.length_pos] using hv
        · rw [← List.length_pos, assemble_audio_length]
          simpa [← List.length_pos] using ha
        · intro h; cases h
        · simp [← List.drop_one]
        · simp [← List.drop_one]
      · rw [he]
        refine ⟨?_, ?_, 1, le_refl 1, ?_, ?_, fun _ => ⟨hv1, ha1⟩, ?_, ?_⟩
        · rw [← List.length_pos, assemble_video_length, htr]
          simp [List.length_tail]; omega
        · rw [← List.length_pos, assemble_audio_length, htr]
          simp [List.length_tail]; omega
        · simp [assemble_video_length, htr, List.length_tail]
        · simp [assemble_audio_length, htr, List.length_tail]
        · simp [assemble_video_tail, htr, tail_tail_eq_drop_two]
        · simp [assemble_audio_tail, htr, tail_tail_eq_drop_two]

/-- Witness for C8 at a concrete state and inputs. -/
theorem muxer_segment_invariant_witness :
    ((initMuxer [3, 2] 1).video_streams.length = 1 ∧
      (initMuxer [3, 2] 1).audio_streams.length = 1) ∧
    ((push_video sampleState .flush).1.video_streams ≠ [] ∧
      sampleState.video_streams.length ≤ (push_video sampleState .flush).1.video_streams.length ∧
      (push_video sampleState .flush).1.audio_streams = sampleState.audio_streams) ∧
    ((push_audio sampleState .flush).1.audio_streams ≠ [] ∧
      sampleState.audio_streams.length ≤ (push_audio sampleState .flush).1.audio_streams.length ∧
      (push_audio sampleState .flush).1.video_streams = sampleState.video_streams) ∧
    ((try_pop sampleState).2.video_streams ≠ [] ∧ (try_pop sampleState).2.audio_streams ≠ [] ∧
      ∃ k, k ≤ 1 ∧
        (try_pop sampleState).2.video_streams.length = sampleState.video_streams.length - k ∧
        (try_pop sampleState).2.audio_streams.length = sampleState.audio_streams.length - k ∧
        (k = 1 → 1 < sampleState.video_streams.length ∧ 1 < sampleState.audio_streams.length) ∧
        (try_pop sampleState).2.video_streams.tail = sampleState.video_streams.drop (1 + k) ∧
        (try_pop sampleState).2.audio_streams.tail = sampleState.audio_streams.drop (1 + k)) :=
  muxer_segment_invariant [3, 2] 1 sampleState .flush .flush (by decide) (by decide)

/-- C9: the live cadence is always a cyclic rotation of the configured base:
it starts rotated so the last base entry is at the front, pushes never touch
it, `pop_audio` rotates it left by exactly one, and `try_pop` keeps it a
rotation of the base. -/
theorem cadence_is_rotation (base cad : List Int) (c : Int) (cs : List Int) (fm : Nat)
    (s : MuxerState) (v : VideoInput) (a : AudioInput)
    (hrot : ∃ n, s.audio_cadence = base.rotate n) (hane : s.audio_streams ≠ []) :
    (initMuxer cad fm).audio_cadence = cad.rotate (cad.length - 1) ∧
    (initMuxer (cs ++ [c]) fm).audio_cadence = c :: cs ∧
    (push_video s v).1.audio_cadence = s.audio_cadence ∧
    (push_audio s a).1.audio_cadence = s.audio_cadence ∧
    (pop_audio s).2.audio_cadence = s.audio_cadence.rotate 1 ∧
    (∃ m, (try_pop s).2.audio_cadence = base.rotate m) := by
  refine ⟨by simp [initMuxer], ?_, ?_, ?_, pop_audio_cadence_of_ne_nil s hane, ?_⟩
  · show (cs ++ [c]).rotate ((cs ++ [c]).length - 1) = c :: cs
    rw [List.length_append]
    simp only [List.length_singleton, Nat.add_sub_cancel]
    rw [List.rotate_eq_drop_append_take (by simp), List.drop_left, List.take_left]
    rfl
  · cases v <;> simp [push_video]
  · cases a <;> simp [push_audio]
  · obtain ⟨n, hn⟩ := hrot
    rcases try_pop_cases s with ⟨f, rest, hfb, he⟩ | ⟨hfb, hnr, he⟩ | ⟨hfb, hnr, he⟩
    · exact ⟨n, by rw [he]; simpa using hn⟩
    · exact ⟨n, by rw [he, truncate_streams_audio_cadence]; exact hn⟩
    · obtain ⟨k, hk⟩ := assemble_cadence_rotation (truncate_streams s)
      rw [truncate_streams_audio_cadence, hn, List.rotate_rotate] at hk
      exact ⟨n + k, by rw [he]; simpa using hk⟩

/-- Witness for C9 at a concrete base cadence and state. -/
theorem cadence_is_rotation_witness :
    (initMuxer [3, 2] 1).audio_cadence = [3, 2].rotate ([3, 2].length - 1) ∧
    (initMuxer ([3] ++ [2]) 1).audio_cadence = 2 :: [3] ∧
    (push_video sampleState .flush).1.audio_cadence = sampleState.audio_cadence ∧
    (push_audio sampleState .flush).1.audio_cadence = sampleState.audio_cadence ∧
    (pop_audio sampleState).2.audio_cadence = sampleState.audio_cadence.rotate 1 ∧
    (∃ m, (try_pop sampleState).2.audio_cadence = [2, 3].rotate m) :=
  cadence_is_rotation [2, 3] [3, 2] 2 [3] 1 sampleState .flush .flush
    ⟨1, by decide⟩ (by decide)

/-- C1 counterexample: pushing a real frame into a state whose back segment
already holds 32 frames throws Overflow although the front segment is empty,
so Overflow is not equivalent to the front segment exceeding its bound. -/
theorem push_video_overflow_on_back_segment :
    (push_video backFullState (.frames .simple [5])).2 = true ∧
    ((push_video backFullState (.frames .simple [5])).1.video_streams.headD []).length = 0 ∧
    (backFullState.video_streams.headD []).length = 0 := by
  decide

/-- C1 (amended): `push_video` (real frame) and `push_audio` (real chunk)
throw Overflow exactly when the BACK segment — the one receiving the push —
ends up strictly larger than its bound (32 frames, `32 × cadence_head`
samples): the boundary push reaching the bound exactly succeeds and the next
one fails. -/
theorem push_overflow_iff_back_exceeds (s : MuxerState) (mode : DisplayMode)
    (fs : List Nat) (xs : List Int)
    (h0 : 0 ≤ s.audio_cadence.headD 0) (h1 : s.audio_cadence.headD 0 < 2 ^ 31) :
    ((push_video s (.frames mode fs)).2 = true ↔
      32 < (s.video_streams.getLastD []).length + fs.length) ∧
    ((push_audio s (.chunk xs)).2 = true ↔
      32 * (s.audio_cadence.headD 0).toNat <
        (s.audio_streams.getLastD []).length + xs.length) := by
  have hu : usize (32 * s.audio_cadence.headD 0) = 32 * (s.audio_cadence.headD 0).toNat := by
    simp only [usize]
    omega
  constructor
  · show decide (32 < ((pushBackSeg s.video_streams
        (fs.map fun n => { vid := some n, audio := [] })).getLastD []).length) = true ↔ _
    rw [decide_eq_true_eq, pushBackSeg_getLastD, List.length_append, List.length_map]
  · show decide (usize (32 * s.audio_cadence.headD 0) <
        ((pushBackSeg s.audio_streams xs).getLastD []).length) = true ↔ _
    rw [decide_eq_true_eq, pushBackSeg_getLastD, List.length_append, hu]

/-- Witness for C1 at a concrete state: a real-frame push and a real-chunk
push with their overflow conditions instantiated. -/
theorem push_overflow_iff_back_exceeds_witness :
    ((push_video sampleState (.frames .simple [7])).2 = true ↔
      32 < (sampleState.video_streams.getLastD []).length + [7].length) ∧
    ((push_audio sampleState (.chunk [1, 2])).2 = true ↔
      32 * (sampleState.audio_cadence.headD 0).toNat <
        (sampleState.audio_streams.getLastD []).length + [1, 2].length) :=
  push_overflow_iff_back_exceeds sampleState .simple [7] [1, 2] (by decide) (by decide)

/-- C2 counterexample: with one video segment whose front holds a full tick
for `Simple` mode but two audio segments buffered, `video_ready` is false,
contradicting the claimed equivalence. -/
theorem video_ready_not_spec_equivalent :
    video_ready laggingVideoState = false ∧
    ¬1 < laggingVideoState.video_streams.length ∧
    laggingVideoState.display_mode = .simple ∧
    1 ≤ (laggingVideoState.video_streams.headD []).length := by
  decide

/-- C2 (amended): `video_ready` holds exactly when more than one video
segment is buffered, or the video stream has at least as many segments as the
audio stream AND its front segment holds one tick's worth of units (2 frames
for `DeinterlaceBobReinterlace`/`Interlace`/`Half`, 1 otherwise); dually for
`audio_ready` (`cadence_head` samples, twice that for `Duplicate`). -/
theorem ready_matches_spec (s : MuxerState)
    (h0 : 0 ≤ s.audio_cadence.headD 0) (h1 : s.audio_cadence.headD 0 < 2 ^ 31) :
    (video_ready s = true ↔ video_ready_spec s) ∧
    (audio_ready s = true ↔ audio_ready_spec s) := by
  rw [List.headD_eq_head?] at h0 h1
  have hu : usize (s.audio_cadence.head?.getD 0) = (s.audio_cadence.head?.getD 0).toNat := by
    simp only [usize]
    omega
  constructor
  · cases hm : s.display_mode <;>
      simp [video_ready, video_ready2, video_ready_spec, video_tick_units, hm]
  · cases hm : s.display_mode <;>
      simp [audio_ready, audio_ready2, audio_ready_spec, audio_tick_units, hm, hu,
        Nat.le_div_iff_mul_le (by norm_num : 0 < 2), Nat.mul_comm]

/-- Witness for C2 at a concrete state. -/
theorem ready_matches_spec_witness :
    (video_ready sampleState = true ↔ video_ready_spec sampleState) ∧
    (audio_ready sampleState = true ↔ audio_ready_spec sampleState) :=
  ready_matches_spec sampleState (by decide) (by decide)

/-- C4 counterexample: `calc_nb_frames` is not monotone over the full
`uint32` input range: under `Duplicate` the doubled value wraps through the
final `uint32` cast at input `2^31`. -/
theorem calc_nb_frames_not_monotone :
    ¬(∀ (dbl : Bool) (m : DisplayMode) (a b : Nat), a ≤ b → b < 2 ^ 32 →
        calc_nb_frames dbl m a ≤ calc_nb_frames dbl m b) := by
  intro h
  have hle := h false .duplicate (2 ^ 31 - 1) (2 ^ 31) (by norm_num) (by norm_num)
  have e1 : calc_nb_frames false .duplicate (2 ^ 31 - 1) = 2 ^ 32 - 2 := by
    simp [calc_nb_frames]
  have e2 : calc_nb_frames false .duplicate (2 ^ 31) = 0 := by
    simp [calc_nb_frames]
  rw [e1, e2] at hle
  exact absurd hle (by norm_num)

/-- C4 (amended): `calc_nb_frames` computes (input ×2 if the filter is
double-rate, then ÷2 for `Interlace`/`DeinterlaceBobReinterlace`/`Half` or
×2 for `Duplicate`) truncated to `uint32`; it is monotone whenever the
pre-cast value cannot wrap (input ×4 below `2^32`), the double-rate doubling
happens before the mode adjustment, and the per-mode halving/doubling
identities hold whenever the result fits in `uint32`. -/
theorem calc_nb_frames_no_wrap_monotone :
    (∀ (dbl : Bool) (m : DisplayMode) (a b : Nat), a ≤ b → b * 4 < 2 ^ 32 →
        calc_nb_frames dbl m a ≤ calc_nb_frames dbl m b) ∧
    (∀ (m : DisplayMode) (n : Nat), calc_nb_frames true m n = calc_nb_frames false m (2 * n)) ∧
    (∀ n : Nat, n < 2 ^ 32 →
        calc_nb_frames false .interlace n = n / 2 ∧
        calc_nb_frames false .deinterlace_bob_reinterlace n = n / 2 ∧
        calc_nb_frames false .half n = n / 2) ∧
    (∀ n : Nat, 2 * n < 2 ^ 32 → calc_nb_frames false .duplicate n = 2 * n) := by
  refine ⟨?_, ?_, ?_, ?_⟩
  · intro dbl m a b hab hb
    cases dbl <;> cases m <;> simp [calc_nb_frames] <;> omega
  · intro m n
    cases m <;> simp [calc_nb_frames, Nat.mul_comm]
  · intro n hn
    refine ⟨?_, ?_, ?_⟩ <;> simp [calc_nb_frames] <;> omega
  · intro n hn
    simp [calc_nb_frames]
    omega

/-- Witness for C4 at concrete inputs for each conjunct. -/
theorem calc_nb_frames_no_wrap_monotone_witness :
    calc_nb_frames false .duplicate 3 ≤ calc_nb_frames false .duplicate 5 ∧
    calc_nb_frames true .half 10 = calc_nb_frames false .half (2 * 10) ∧
    calc_nb_frames false .interlace 11 = 11 / 2 ∧
    calc_nb_frames false .duplicate 21 = 2 * 21 :=
  ⟨calc_nb_frames_no_wrap_monotone.1 false .duplicate 3 5 (by norm_num) (by norm_num),
   calc_nb_frames_no_wrap_monotone.2.1 .half 10,
   (calc_nb_frames_no_wrap_monotone.2.2.1 11 (by norm_num)).1,
   calc_nb_frames_no_wrap_monotone.2.2.2 21 (by norm_num)⟩

/-- Iterating `pop_audio` `k` times (for `k` at most the cadence length)
consumes exactly the sum of the first `k` cadence entries from the front
audio segment and rotates the cadence by `k`. -/
lemma pop_audio_iter_spec : ∀ (k : Nat) (s : MuxerState) (buf : List Int)
    (rest : List (List Int)),
    s.audio_streams = buf :: rest →
    (∀ x ∈ s.audio_cadence, 0 ≤ x) →
    k ≤ s.audio_cadence.length →
    ((s.audio_cadence.take k).map Int.toNat).sum ≤ buf.length →
    (pop_audio_iter k s).2.audio_streams =
      buf.drop (((s.audio_cadence.take k).map Int.toNat).sum) :: rest ∧
    (pop_audio_iter k s).2.audio_cadence = s.audio_cadence.rotate k ∧
    ((pop_audio_iter k s).1.map List.length).sum =
      ((s.audio_cadence.take k).map Int.toNat).sum := by
  intro k
  induction k with
  | zero =>
      intro s buf rest hs _ _ _
      exact ⟨by simpa [pop_audio_iter] using hs, by simp [pop_audio_iter],
        by simp [pop_audio_iter]⟩
  | succ k ih =>
      intro s buf rest hs hpos hk hsum
      cases hc : s.audio_cadence with
      | nil => rw [hc] at hk; simp at hk
      | cons c t =>
          have hrot1 : (c :: t).rotate 1 = t ++ [c] := by
            simpa using List.rotate_cons_succ t c 0
          have hkt : k ≤ t.length := by rw [hc] at hk; simpa using hk
          rw [hc] at hsum
          have hsum' : (((c :: t).take (k + 1)).map Int.toNat).sum =
              c.toNat + ((t.take k).map Int.toNat).sum := by
            rw [List.take_succ_cons]; simp
          have hstep : pop_audio s = (buf.take c.toNat, { s with
              audio_streams := buf.drop c.toNat :: rest
              audio_cadence := t ++ [c] }) := by
            simp [pop_audio, hs, hc, hrot1]
          have hc1 : c.toNat ≤ buf.length := by
            rw [hsum'] at hsum; omega
          have ihs := ih { s with
              audio_streams := buf.drop c.toNat :: rest
              audio_cadence := t ++ [c] } (buf.drop c.toNat) rest
            (by simp)
            (by
              intro x hx
              refine hpos x ?_
              rw [hc]
              rcases List.mem_append.mp hx with h | h
              · exact List.mem_cons_of_mem c h
              · simp only [List.mem_singleton] at h
                rw [h]; exact List.mem_cons_self c t)
            (by simp; omega)
            (by
              simp only [List.take_append_of_le_length hkt, List.length_drop]
              rw [hsum'] at hsum
              omega)
          clear hc
          simp only [List.take_append_of_le_length hkt] at ihs
          have hiter1 : (pop_audio_iter (k + 1) s).1 =
              (buf.take c.toNat) :: (pop_audio_iter k { s with
                  audio_streams := buf.drop c.toNat :: rest
                  audio_cadence := t ++ [c] }).1 := by
            simp [pop_audio_iter, hstep]
          have hiter2 : (pop_audio_iter (k + 1) s).2 =
              (pop_audio_iter k { s with
                  audio_streams := buf.drop c.toNat :: rest
                  audio_cadence := t ++ [c] }).2 := by
            simp [pop_audio_iter, hstep]
          refine ⟨?_, ?_, ?_⟩
          · rw [hiter2, ihs.1, List.drop_drop, hsum']
          · rw [hiter2, ihs.2.1]
            exact (List.rotate_cons_succ t c k).symm
          · rw [hiter1]
            simp only [List.map_cons, List.sum_cons, ihs.2.2, hsum',
              List.length_take, Nat.min_eq_left hc1]

/-- C3: over one full cadence cycle of `k` positive entries summing to `S`,
starting from any rotation offset, `k` consecutive `pop_audio` calls (whose
per-call precondition is implied by the front segment holding `S` samples)
remove exactly `S` samples in total from the front audio segment and return
the cadence to its starting rotation; each individual pop removes exactly
the current cadence head and rotates the cadence by one. -/
theorem cadence_cycle_consumes_sum (base : List Int) (n : Nat) (s : MuxerState)
    (buf : List Int) (rest : List (List Int))
    (_hbne : base ≠ []) (hpos : ∀ x ∈ base, 0 < x)
    (hcad : s.audio_cadence = base.rotate n)
    (hs : s.audio_streams = buf :: rest)
    (hlen : (base.map Int.toNat).sum ≤ buf.length) :
    ((pop_audio_iter base.length s).1.map List.length).sum = (base.map Int.toNat).sum ∧
    (pop_audio_iter base.length s).2.audio_streams =
      buf.drop ((base.map Int.toNat).sum) :: rest ∧
    (pop_audio_iter base.length s).2.audio_cadence = s.audio_cadence ∧
    (∀ (s' : MuxerState) (buf' : List Int) (rest' : List (List Int)),
      s'.audio_streams = buf' :: rest' →
      (pop_audio s').1 = buf'.take ((s'.audio_cadence.headD 0).toNat) ∧
      (pop_audio s').2.audio_streams =
        buf'.drop ((s'.audio_cadence.headD 0).toNat) :: rest' ∧
      (pop_audio s').2.audio_cadence = s'.audio_cadence.rotate 1) := by
  have hsum_eq : ((s.audio_cadence.take base.length).map Int.toNat).sum =
      (base.map Int.toNat).sum := by
    rw [hcad, ← List.length_rotate base n, List.take_length]
    exact List.Perm.sum_eq (List.Perm.map Int.toNat (List.rotate_perm base n))
  have hspec := pop_audio_iter_spec base.length s buf rest hs
    (by
      intro x hx
      rw [hcad, List.mem_rotate] at hx
      exact le_of_lt (hpos x hx))
    (by rw [hcad, List.length_rotate])
    (by rw [hsum_eq]; exact hlen)
  refine ⟨by rw [hspec.2.2, hsum_eq], ?_, ?_, ?_⟩
  · rw [hspec.1, hsum_eq]
  · rw [hspec.2.1, hcad, ← List.length_rotate base n, List.rotate_length]
  · intro s' buf' rest' hs'
    refine ⟨by simp [pop_audio, hs'], by simp [pop_audio, hs'], by simp [pop_audio, hs']⟩

/-- Witness for C3: base cadence `[2, 3]` (sum 5) started at offset 1, on a
front segment of 8 samples. -/
theorem cadence_cycle_consumes_sum_witness :
    ((pop_audio_iter [2, 3].length sampleState).1.map List.length).sum =
      ([2, 3].map Int.toNat).sum ∧
    (pop_audio_iter [2, 3].length sampleState).2.audio_streams =
      [0, 1, 2, 3, 4, 5, 6, 7].drop (([2, 3].map Int.toNat).sum) :: [] ∧
    (pop_audio_iter [2, 3].length sampleState).2.audio_cadence = sampleState.audio_cadence ∧
    (∀ (s' : MuxerState) (buf' : List Int) (rest' : List (List Int)),
      s'.audio_streams = buf' :: rest' →
      (pop_audio s').1 = buf'.take ((s'.audio_cadence.headD 0).toNat) ∧
      (pop_audio s').2.audio_streams =
        buf'.drop ((s'.audio_cadence.headD 0).toNat) :: rest' ∧
      (pop_audio s').2.audio_cadence = s'.audio_cadence.rotate 1) :=
  cadence_cycle_consumes_sum [2, 3] 1 sampleState [0, 1, 2, 3, 4, 5, 6, 7] []
    (by decide) (by decide) (by decide) (by decide) (by decide)

/-- One `Duplicate`-mode pop cycle on a single-segment state: `try_pop`
consumes one video frame and two consecutive cadence-allocated audio chunks,
concatenates them into the frame's audio, enqueues the composite frame twice
and returns the first copy, leaving the second in the output buffer. -/
lemma duplicate_tick (s : MuxerState) (v : MFrame) (vrest : List MFrame) (buf : List Int)
    (hm : s.display_mode = .duplicate) (hfb : s.frame_buffer = [])
    (hvs : s.video_streams = [v :: vrest]) (has : s.audio_streams = [buf])
    (hcne : s.audio_cadence ≠ [])
    (hpos : ∀ x ∈ s.audio_cadence, 0 ≤ x ∧ x < 2 ^ 31)
    (hready : 2 * (s.audio_cadence.headD 0).toNat ≤ buf.length) :
    try_pop s = (some (.single ⟨v.vid,
        buf.take (s.audio_cadence.headD 0).toNat ++
          (buf.drop (s.audio_cadence.headD 0).toNat).take
            ((s.audio_cadence.rotate 1).headD 0).toNat⟩),
      { s with
        video_streams := [vrest]
        audio_streams := [(buf.drop (s.audio_cadence.headD 0).toNat).drop
          ((s.audio_cadence.rotate 1).headD 0).toNat]
        frame_buffer := [.single ⟨v.vid,
          buf.take (s.audio_cadence.headD 0).toNat ++
            (buf.drop (s.audio_cadence.headD 0).toNat).take
              ((s.audio_cadence.rotate 1).headD 0).toNat⟩]
        audio_cadence := s.audio_cadence.rotate 2 }) := by
  have hhead := headD_mem s.audio_cadence (0 : Int) hcne
  have h0 := (hpos _ hhead).1
  have h31 := (hpos _ hhead).2
  have hu : usize (s.audio_cadence.headD 0) = (s.audio_cadence.headD 0).toNat := by
    simp only [usize]; omega
  have htr : truncate_streams s = s := by
    unfold truncate_streams
    rw [if_neg]
    simp [hvs]
  have hnr : not_ready s = false := by
    have hu' : usize (s.audio_cadence.head?.getD 0) = (s.audio_cadence.head?.getD 0).toNat := by
      rw [← List.headD_eq_head?]
      simp only [usize]
      omega
    have hready' : 2 * (s.audio_cadence.head?.getD 0).toNat ≤ buf.length := by
      rw [← List.headD_eq_head?]
      exact hready
    simp only [not_ready, video_ready2, audio_ready2, hm, hvs, has]
    simp [hu', Nat.le_div_iff_mul_le (by norm_num : 0 < 2)]
    omega
  rcases try_pop_cases s with ⟨f, rest, hfb', _⟩ | ⟨_, hnr', _⟩ | ⟨_, _, he⟩
  · rw [hfb] at hfb'; cases hfb'
  · rw [htr, hnr] at hnr'; cases hnr'
  · rw [htr] at he
    have hasm : assemble s = { s with
        video_streams := [vrest]
        audio_streams := [(buf.drop (s.audio_cadence.headD 0).toNat).drop
          ((s.audio_cadence.rotate 1).headD 0).toNat]
        frame_buffer := [.single ⟨v.vid,
            buf.take (s.audio_cadence.headD 0).toNat ++
              (buf.drop (s.audio_cadence.headD 0).toNat).take
                ((s.audio_cadence.rotate 1).headD 0).toNat⟩,
          .single ⟨v.vid,
            buf.take (s.audio_cadence.headD 0).toNat ++
              (buf.drop (s.audio_cadence.headD 0).toNat).take
                ((s.audio_cadence.rotate 1).headD 0).toNat⟩]
        audio_cadence := s.audio_cadence.rotate 2 } := by
      simp [assemble, pop_video, pop_audio, hvs, has, hm, hfb, List.rotate_rotate]
    rw [hasm] at he
    rw [he]
    simp

/-- Iterated `Duplicate`-mode pops: `N` buffered video frames with enough
paired audio produce, over `2N` `try_pop` calls, exactly the outputs given by
`duplicate_tick_frames` (each composite frame, its audio being the two
consecutive cadence-allocated chunks concatenated, emitted twice), consuming
all `N` video frames, leaving `duplicate_consume` of the audio segment and
the cadence rotated `2N` positions. -/
lemma duplicate_run_aux : ∀ (N : Nat) (s : MuxerState) (vseg : List MFrame)
    (buf : List Int) (M : Nat),
    s.display_mode = .duplicate → s.frame_buffer = [] →
    s.video_streams = [vseg] → vseg.length = N →
    s.audio_streams = [buf] → s.audio_cadence ≠ [] →
    (∀ x ∈ s.audio_cadence, 0 ≤ x ∧ x < 2 ^ 31) →
    (∀ x ∈ s.audio_cadence, x.toNat ≤ M) →
    2 * N * M ≤ buf.length →
    (try_pop_run (2 * N) s).1 =
      ((duplicate_tick_frames N vseg buf s.audio_cadence).map fun f => [some f, some f]).flatten ∧
    (try_pop_run (2 * N) s).2.video_streams = [[]] ∧
    (try_pop_run (2 * N) s).2.audio_streams = [duplicate_consume N buf s.audio_cadence] ∧
    (try_pop_run (2 * N) s).2.audio_cadence = s.audio_cadence.rotate (2 * N) ∧
    (try_pop_run (2 * N) s).2.frame_buffer = [] := by
  intro N
  induction N with
  | zero =>
      intro s vseg buf M _ hfb hvs hN has _ _ _ _
      refine ⟨by simp [try_pop_run, duplicate_tick_frames], ?_,
        by simpa [try_pop_run, duplicate_consume] using has,
        by simp [try_pop_run], by simpa [try_pop_run] using hfb⟩
      rw [List.length_eq_zero] at hN
      simpa [try_pop_run, hN] using hvs
  | succ N ih =>
      intro s vseg buf M hm hfb hvs hN has hcne hpos hM hbuf
      cases vseg with
      | nil => simp at hN
      | cons v vrest =>
          have hh1 : (s.audio_cadence.headD 0).toNat ≤ M :=
            hM _ (headD_mem s.audio_cadence 0 hcne)
          have hcne1 : s.audio_cadence.rotate 1 ≠ [] := by
            simpa [List.rotate_eq_nil_iff] using hcne
          have hh2mem : (s.audio_cadence.rotate 1).headD 0 ∈ s.audio_cadence := by
            rw [← List.mem_rotate (n := 1)]
            exact headD_mem _ 0 hcne1
          have hh2 : ((s.audio_cadence.rotate 1).headD 0).toNat ≤ M := hM _ hh2mem
          have hexp : 2 * (N + 1) * M = 2 * N * M + (M + M) := by ring
          rw [hexp] at hbuf
          have hready : 2 * (s.audio_cadence.headD 0).toNat ≤ buf.length := by omega
          have htick := duplicate_tick s v vrest buf hm hfb hvs has hcne hpos hready
          set F : DrawFrame := .single ⟨v.vid,
            buf.take (s.audio_cadence.headD 0).toNat ++
              (buf.drop (s.audio_cadence.headD 0).toNat).take
                ((s.audio_cadence.rotate 1).headD 0).toNat⟩ with hF
          set s1 : MuxerState := { s with
            video_streams := [vrest]
            audio_streams := [(buf.drop (s.audio_cadence.headD 0).toNat).drop
              ((s.audio_cadence.rotate 1).headD 0).toNat]
            frame_buffer := [F]
            audio_cadence := s.audio_cadence.rotate 2 } with hs1
          have hsecond : try_pop s1 = (some F, { s1 with frame_buffer := [] }) :=
            try_pop_buffer s1 F [] (by rw [hs1])
          have hrun : try_pop_run (2 * (N + 1)) s =
              (some F :: some F :: (try_pop_run (2 * N) { s1 with frame_buffer := [] }).1,
                (try_pop_run (2 * N) { s1 with frame_buffer := [] }).2) := by
            rw [show 2 * (N + 1) = 2 * N + 1 + 1 from by ring]
            simp only [try_pop_run, htick, hsecond]
          have ihs := ih { s1 with frame_buffer := [] } vrest
            ((buf.drop (s.audio_cadence.headD 0).toNat).drop
              ((s.audio_cadence.rotate 1).headD 0).toNat) M
            hm rfl rfl (by simpa using hN) rfl
            (by
              show s.audio_cadence.rotate 2 ≠ []
              simpa [List.rotate_eq_nil_iff] using hcne)
            (by
              intro x hx
              exact hpos x (List.mem_rotate.mp hx))
            (by
              intro x hx
              exact hM x (List.mem_rotate.mp hx))
            (by
              show 2 * N * M ≤ ((buf.drop (s.audio_cadence.headD 0).toNat).drop
                ((s.audio_cadence.rotate 1).headD 0).toNat).length
              simp only [List.length_drop]
              omega)
          obtain ⟨hfjoin, hfvid, hfaud, hfcad, hffb⟩ := ihs
          refine ⟨?_, ?_, ?_, ?_, ?_⟩
          · rw [hrun]
            simp only [duplicate_tick_frames, List.headD_cons, List.tail_cons,
              List.map_cons, List.flatten_cons]
            rw [hfjoin]
            rfl
          · rw [hrun]
            exact hfvid
          · rw [hrun]
            simp only [duplicate_consume]
            exact hfaud
          · rw [hrun, hfcad]
            show (s.audio_cadence.rotate 2).rotate (2 * N) = s.audio_cadence.rotate (2 * (N + 1))
            rw [List.rotate_rotate, show 2 + 2 * N = 2 * (N + 1) from by ring]
          · rw [hrun]
            exact hffb

lemma double_flatten_length (frames : List DrawFrame) :
    ((frames.map fun f => [some f, some f]).flatten).length = 2 * frames.length := by
  induction frames with
  | nil => simp
  | cons f fs ih => simp [ih]; omega

lemma duplicate_tick_frames_length : ∀ (N : Nat) (vseg : List MFrame)
    (buf cad : List Int), (duplicate_tick_frames N vseg buf cad).length = N := by
  intro N
  induction N with
  | zero => intro vseg buf cad; rfl
  | succ N ih =>
      intro vseg buf cad
      simp only [duplicate_tick_frames, List.length_cons, ih]

/-- C5: in `Duplicate` display mode, each successful pop cycle removes one
video unit and two consecutive cadence-allocated audio chunks, concatenates
the second chunk onto the first as the composite frame's audio, rotates the
cadence twice, and enqueues the same composite frame twice (returning the
first copy); hence `N` buffered video ticks with sufficient paired audio
yield exactly `2N` output frames — the `duplicate_tick_frames` list of
two-chunk composites, each emitted twice — consuming all `N` video frames,
exactly `duplicate_consume`'s worth of the audio segment, and leaving the
cadence rotated `2N` positions. -/
theorem duplicate_mode_doubles_output (s : MuxerState) (vseg : List MFrame)
    (buf : List Int) (M N : Nat)
    (hm : s.display_mode = .duplicate) (hfb : s.frame_buffer = [])
    (hvs : s.video_streams = [vseg]) (hN : vseg.length = N)
    (has : s.audio_streams = [buf]) (hcne : s.audio_cadence ≠ [])
    (hpos : ∀ x ∈ s.audio_cadence, 0 ≤ x ∧ x < 2 ^ 31)
    (hM : ∀ x ∈ s.audio_cadence, x.toNat ≤ M)
    (hbuf : 2 * N * M ≤ buf.length) :
    (try_pop_run (2 * N) s).1.length = 2 * N ∧
    (try_pop_run (2 * N) s).1 =
      ((duplicate_tick_frames N vseg buf s.audio_cadence).map fun f => [some f, some f]).flatten ∧
    (try_pop_run (2 * N) s).2.video_streams = [[]] ∧
    (try_pop_run (2 * N) s).2.audio_streams = [duplicate_consume N buf s.audio_cadence] ∧
    (try_pop_run (2 * N) s).2.audio_cadence = s.audio_cadence.rotate (2 * N) ∧
    (∀ (s' : MuxerState) (v : MFrame) (vrest : List MFrame) (buf' : List Int),
      s'.display_mode = .duplicate → s'.frame_buffer = [] →
      s'.video_streams = [v :: vrest] → s'.audio_streams = [buf'] →
      s'.audio_cadence ≠ [] → (∀ x ∈ s'.audio_cadence, 0 ≤ x ∧ x < 2 ^ 31) →
      2 * (s'.audio_cadence.headD 0).toNat ≤ buf'.length →
      try_pop s' = (some (.single ⟨v.vid,
          buf'.take (s'.audio_cadence.headD 0).toNat ++
            (buf'.drop (s'.audio_cadence.headD 0).toNat).take
              ((s'.audio_cadence.rotate 1).headD 0).toNat⟩),
        { s' with
          video_streams := [vrest]
          audio_streams := [(buf'.drop (s'.audio_cadence.headD 0).toNat).drop
            ((s'.audio_cadence.rotate 1).headD 0).toNat]
          frame_buffer := [.single ⟨v.vid,
            buf'.take (s'.audio_cadence.headD 0).toNat ++
              (buf'.drop (s'.audio_cadence.headD 0).toNat).take
                ((s'.audio_cadence.rotate 1).headD 0).toNat⟩]
          audio_cadence := s'.audio_cadence.rotate 2 })) := by
  obtain ⟨hfjoin, hfvid, hfaud, hfcad, _⟩ :=
    duplicate_run_aux N s vseg buf M hm hfb hvs hN has hcne hpos hM hbuf
  refine ⟨?_, hfjoin, hfvid, hfaud, hfcad, ?_⟩
  · rw [hfjoin, double_flatten_length, duplicate_tick_frames_length]
  · intro s' v vrest buf' hm' hfb' hvs' has' hcne' hpos' hready'
    exact duplicate_tick s' v vrest buf' hm' hfb' hvs' has' hcne' hpos' hready'

/-- Witness for C5: two video frames and twelve audio samples under cadence
`[3, 2]` in `Duplicate` mode yield four outputs with the two-chunk audio
pairings, six remaining samples and the cadence back at its start. -/
theorem duplicate_mode_doubles_output_witness :
    (try_pop_run (2 * 2) duplicateState).1.length = 2 * 2 ∧
    (try_pop_run (2 * 2) duplicateState).1 =
      ((duplicate_tick_frames 2 [⟨some 1, []⟩, ⟨some 2, []⟩]
          [0, 1, 2, 3, 4, 5, 6, 7, 8, 9, 10, 11] duplicateState.audio_cadence).map
        fun f => [some f, some f]).flatten ∧
    (try_pop_run (2 * 2) duplicateState).2.video_streams = [[]] ∧
    (try_pop_run (2 * 2) duplicateState).2.audio_streams =
      [duplicate_consume 2 [0, 1, 2, 3, 4, 5, 6, 7, 8, 9, 10, 11]
        duplicateState.audio_cadence] ∧
    (try_pop_run (2 * 2) duplicateState).2.audio_cadence =
      duplicateState.audio_cadence.rotate (2 * 2) ∧
    (∀ (s' : MuxerState) (v : MFrame) (vrest : List MFrame) (buf' : List Int),
      s'.display_mode = .duplicate → s'.frame_buffer = [] →
      s'.video_streams = [v :: vrest] → s'.audio_streams = [buf'] →
      s'.audio_cadence ≠ [] → (∀ x ∈ s'.audio_cadence, 0 ≤ x ∧ x < 2 ^ 31) →
      2 * (s'.audio_cadence.headD 0).toNat ≤ buf'.length →
      try_pop s' = (some (.single ⟨v.vid,
          buf'.take (s'.audio_cadence.headD 0).toNat ++
            (buf'.drop (s'.audio_cadence.headD 0).toNat).take
              ((s'.audio_cadence.rotate 1).headD 0).toNat⟩),
        { s' with
          video_streams := [vrest]
          audio_streams := [(buf'.drop (s'.audio_cadence.headD 0).toNat).drop
            ((s'.audio_cadence.rotate 1).headD 0).toNat]
          frame_buffer := [.single ⟨v.vid,
            buf'.take (s'.audio_cadence.headD 0).toNat ++
              (buf'.drop (s'.audio_cadence.headD 0).toNat).take
                ((s'.audio_cadence.rotate 1).headD 0).toNat⟩]
          audio_cadence := s'.audio_cadence.rotate 2 })) :=
  duplicate_mode_doubles_output duplicateState
    [⟨some 1, []⟩, ⟨some 2, []⟩] [0, 1, 2, 3, 4, 5, 6, 7, 8, 9, 10, 11] 3 2
    (by decide) (by decide) (by decide) (by decide) (by decide) (by decide)
    (by decide) (by decide) (by decide)

end FrameMuxer
